import Mathlib

/-!
Shallow embedding of the option model, template loader, result
materialization and dispatcher state machine of tabula-py, together with
theorems settling the spec claims about them.

Python numeric values (floats) are modelled as `Rat`; their textual
rendering (Python `str(float)`) is abstracted by `renderRat`.  All
definitions are translated from `tabula/util.py`, `tabula/template.py`,
`tabula/io.py` and `tabula/backend.py`.
-/

namespace Tabula

/-- Rendering of a numeric value into an argument token.  Python renders
floats like `10.0`; the exact digit string is abstracted here, only
injectivity and determinism matter for the claims. -/
def renderRat (q : Rat) : String :=
  if q.den = 1 then toString q.num else toString q.num ++ "/" ++ toString q.den

/-- The `pages` field of `TabulaOption`: `Union[str, int, Iterable[int]]`. -/
inductive Pages where
  | ofStr (s : String)
  | ofInt (n : Int)
  | ofList (l : List Int)
deriving DecidableEq

/-- The `area` field: a flat 4-value region, or a list of regions
(`Iterable[float]` vs `Iterable[Iterable[float]]`; the source
discriminates with `any(type(e) in [list, tuple] for e in self.area)`). -/
inductive AreaSpec where
  | single (vals : List Rat)
  | multi (regions : List (List Rat))
deriving DecidableEq

/-- `TabulaOption` dataclass from `tabula/util.py`. -/
structure TabulaOption where
  pages : Option Pages := none
  guess : Bool := true
  area : Option AreaSpec := none
  relative_area : Bool := false
  lattice : Bool := false
  stream : Bool := false
  password : Option String := none
  silent : Option Bool := none
  columns : Option (List Rat) := none
  relative_columns : Bool := false
  format : Option String := none
  batch : Option String := none
  output_path : Option String := none
  options : Option String := some ""
  multiple_tables : Bool := true
deriving DecidableEq

/-- Python truthiness of the `pages` field (`if self.pages:`). -/
def truthyPages : Option Pages → Bool
  | none => false
  | some (.ofStr s) => s ≠ ""
  | some (.ofInt n) => n ≠ 0
  | some (.ofList l) => l ≠ []

/-- Python truthiness of the `area` field (`if self.area:`). -/
def truthyArea : Option AreaSpec → Bool
  | none => false
  | some (.single vals) => vals ≠ []
  | some (.multi rs) => rs ≠ []

/-- Python truthiness of an optional string field. -/
def truthyStr : Option String → Bool
  | none => false
  | some s => s ≠ ""

/-- Python truthiness of an optional bool field (`silent`). -/
def truthyBoolOpt : Option Bool → Bool
  | none => false
  | some b => b

/-- Python truthiness of an optional numeric list field (`columns`). -/
def truthyCols : Option (List Rat) → Bool
  | none => false
  | some l => l ≠ []

/-- `TabulaOption.merge` from `tabula/util.py`: `self` overwrites `other`;
every field is `self.<f> or other.<f>` (Python `or`, i.e. the left value
when truthy, otherwise the right value). -/
def TabulaOption.merge (self other : TabulaOption) : TabulaOption where
  pages := if truthyPages self.pages then self.pages else other.pages
  guess := self.guess || other.guess
  area := if truthyArea self.area then self.area else other.area
  relative_area := self.relative_area || other.relative_area
  lattice := self.lattice || other.lattice
  stream := self.stream || other.stream
  password := if truthyStr self.password then self.password else other.password
  silent := if truthyBoolOpt self.silent then self.silent else other.silent
  columns := if truthyCols self.columns then self.columns else other.columns
  relative_columns := self.relative_columns || other.relative_columns
  format := if truthyStr self.format then self.format else other.format
  batch := if truthyStr self.batch then self.batch else other.batch
  output_path := if truthyStr self.output_path then self.output_path else other.output_path
  options := if truthyStr self.options then self.options else other.options
  multiple_tables := self.multiple_tables || other.multiple_tables

/-- Errors raised by `build_option_list` (`ValueError` in the source,
distinguished here by raise site; payloads are the data interpolated
into the message). -/
inductive OptionError where
  | invalidRegionLength (values : List Rat) (count : Nat)
  | invalidRegionVertical (top bottom : Rat)
  | invalidRegionHorizontal (left right : Rat)
  | unsortedColumns
deriving DecidableEq

/-- The invalid-region error family (`InvalidRegionError` in the spec). -/
def OptionError.isInvalidRegion : OptionError → Bool
  | .invalidRegionLength _ _ => true
  | .invalidRegionVertical _ _ => true
  | .invalidRegionHorizontal _ _ => true
  | .unsortedColumns => false

/-- `shlex.split` on the raw `options` string.  Quoting rules of shlex
are not modelled: whitespace splitting with empty tokens dropped. -/
def shlexSplit (s : String) : List String :=
  (s.split fun c => c == ' ' || c == '\t' || c == '\n').filter fun t => !(t == "")

/-- Rendering of the `pages` field: `str` for an int, comma-join for a
list/tuple, pass-through for a string. -/
def renderPages : Pages → String
  | .ofInt n => toString n
  | .ofList l => String.intercalate "," (l.map toString)
  | .ofStr s => s

/-- `_format_with_relative` from `tabula/util.py`. -/
def _format_with_relative (values : List Rat) (is_relative : Bool) : String :=
  (if is_relative then "%" else "") ++ String.intercalate "," (values.map renderRat)

/-- `_validate_area` from `tabula/util.py`.  The source first checks
`len(list(values)) != 4` and then unpacks `top, left, bottom, right`;
here the unpacking pattern subsumes the length test (a list matches
`[top, left, bottom, right]` exactly when its length is 4). -/
def _validate_area (values : List Rat) : Except OptionError Unit :=
  match values with
  | [top, left, bottom, right] =>
    if bottom ≤ top then .error (.invalidRegionVertical top bottom)
    else if right ≤ left then .error (.invalidRegionHorizontal left right)
    else .ok ()
  | _ => .error (.invalidRegionLength values values.length)

/-- The `for e in self.area` loop of `build_option_list` for a nested
area list: validate each region, append its `--area` token pair, and set
`multiple_areas` on every iteration. -/
def renderAreas (rel : Bool) (regions : List (List Rat)) (opts : List String)
    (multA : Bool) : Except OptionError (List String × Bool) :=
  match regions with
  | [] => .ok (opts, multA)
  | r :: rest =>
    match _validate_area r with
    | .error e => .error e
    | .ok _ => renderAreas rel rest (opts ++ ["--area", _format_with_relative r rel]) true

/-- The `if self.area:` block of `build_option_list`.  Returns the
accumulated tokens, the value of `self.guess` after the block (the
source assigns `self.guess = False` whenever the area field is truthy)
and the `multiple_areas` flag. -/
def areaPhase (o : TabulaOption) (opts : List String) :
    Except OptionError (List String × Bool × Bool) :=
  if truthyArea o.area then
    match o.area with
    | some (.single vals) =>
      match _validate_area vals with
      | .error e => .error e
      | .ok _ => .ok (opts ++ ["--area", _format_with_relative vals o.relative_area], false, false)
    | some (.multi rs) =>
      match renderAreas o.relative_area rs opts false with
      | .error e => .error e
      | .ok (opts2, multA) => .ok (opts2, false, multA)
    | none => .ok (opts, false, false)
  else .ok (opts, o.guess, false)

/-- Python ascending `sorted()` on the column boundaries. -/
def sortedCols (l : List Rat) : List Rat := List.insertionSort (· ≤ ·) l

/-- The `if self.columns:` block of `build_option_list`: raise when the
boundaries differ from their sorted copy, else append the single
`--columns` token pair. -/
def columnsPhase (o : TabulaOption) (opts : List String) : Except OptionError (List String) :=
  if truthyCols o.columns then
    let cs := o.columns.getD []
    if cs ≠ sortedCols cs then .error .unsortedColumns
    else .ok (opts ++ ["--columns", _format_with_relative cs o.relative_columns])
  else .ok opts

/-- Token accumulation of `TabulaOption.build_option_list`, translated
group by group in source order (`__options` is the accumulator). -/
def buildTokens (o : TabulaOption) : Except OptionError (List String) :=
  let opts : List String := []
  let opts := if truthyStr o.options then opts ++ shlexSplit (o.options.getD "") else opts
  let opts := if truthyPages o.pages then
      opts ++ ["--pages", renderPages (o.pages.getD (.ofStr ""))] else opts
  match areaPhase o opts with
  | .error e => .error e
  | .ok (opts, g, multA) =>
    let opts := if o.lattice then opts ++ ["--lattice"] else opts
    let opts := if o.stream then opts ++ ["--stream"] else opts
    let opts := if g && !multA then opts ++ ["--guess"] else opts
    let opts := if truthyStr o.format then opts ++ ["--format", o.format.getD ""] else opts
    let opts := if truthyStr o.output_path then
        opts ++ ["--outfile", o.output_path.getD ""] else opts
    match columnsPhase o opts with
    | .error e => .error e
    | .ok opts =>
      let opts := if truthyStr o.password then opts ++ ["--password", o.password.getD ""] else opts
      let opts := if truthyStr o.batch then opts ++ ["--batch", o.batch.getD ""] else opts
      let opts := if truthyBoolOpt o.silent then opts ++ ["--silent"] else opts
      .ok opts

/-- `TabulaOption.build_option_list`: the token list (or the raised
error), paired with the state of `self` after the call — the source
mutates `self.guess = False` inside the `if self.area:` block, and this
mutation survives even when validation raises. -/
def TabulaOption.build_option_list (o : TabulaOption) :
    Except OptionError (List String) × TabulaOption :=
  (buildTokens o, if truthyArea o.area then { o with guess := false } else o)

/-- Raw pass-through token group of the rendered argument list. -/
def rawTokens (o : TabulaOption) : List String :=
  if truthyStr o.options then shlexSplit (o.options.getD "") else []

/-- `--pages` token group. -/
def pagesTokens (o : TabulaOption) : List String :=
  if truthyPages o.pages then ["--pages", renderPages (o.pages.getD (.ofStr ""))] else []

/-- `--area` token group: one `--area` token pair per region. -/
def areaTokens (o : TabulaOption) : List String :=
  if truthyArea o.area then
    match o.area with
    | some (.single vals) => ["--area", _format_with_relative vals o.relative_area]
    | some (.multi rs) => (rs.map fun r => ["--area", _format_with_relative r o.relative_area]).flatten
    | none => []
  else []

/-- Whether the option carries an explicit multi-region request (a truthy
nested area list). -/
def multiAreaRequest (o : TabulaOption) : Bool :=
  match o.area with
  | some (.multi (_ :: _)) => true
  | _ => false

/-- `--lattice` token group. -/
def latticeTokens (o : TabulaOption) : List String :=
  if o.lattice then ["--lattice"] else []

/-- `--stream` token group. -/
def streamTokens (o : TabulaOption) : List String :=
  if o.stream then ["--stream"] else []

/-- `--guess` token group: emitted when `guess` is still on after the
area block (the source clears it when an area is given) and no
multi-region request is present. -/
def guessTokens (o : TabulaOption) : List String :=
  if (if truthyArea o.area then false else o.guess) && !multiAreaRequest o then ["--guess"] else []

/-- `--format` token group. -/
def formatTokens (o : TabulaOption) : List String :=
  if truthyStr o.format then ["--format", o.format.getD ""] else []

/-- `--outfile` token group. -/
def outfileTokens (o : TabulaOption) : List String :=
  if truthyStr o.output_path then ["--outfile", o.output_path.getD ""] else []

/-- `--columns` token group (as emitted on the success path). -/
def columnsTokens (o : TabulaOption) : List String :=
  if truthyCols o.columns then
    ["--columns", _format_with_relative (o.columns.getD []) o.relative_columns] else []

/-- `--password` token group. -/
def passwordTokens (o : TabulaOption) : List String :=
  if truthyStr o.password then ["--password", o.password.getD ""] else []

/-- `--batch` token group. -/
def batchTokens (o : TabulaOption) : List String :=
  if truthyStr o.batch then ["--batch", o.batch.getD ""] else []

/-- `--silent` token group. -/
def silentTokens (o : TabulaOption) : List String :=
  if truthyBoolOpt o.silent then ["--silent"] else []

/-- One region record of a Tabula app template file
(`tabula/template.py` reads them from JSON). -/
structure TemplateEntry where
  page : Int
  extraction_method : String
  x1 : Rat
  y1 : Rat
  x2 : Rat
  y2 : Rat
deriving DecidableEq

/-- Ordering used by `sorted(templates, key=itemgetter("page", "extraction_method"))`:
lexicographic on the `(page, extraction_method)` pair. -/
def templateKeyLe (a b : TemplateEntry) : Prop :=
  a.page < b.page ∨ (a.page = b.page ∧ a.extraction_method ≤ b.extraction_method)

instance : DecidableRel templateKeyLe := fun a b =>
  inferInstanceAs (Decidable
    (a.page < b.page ∨ (a.page = b.page ∧ a.extraction_method ≤ b.extraction_method)))

instance : IsTotal TemplateEntry templateKeyLe :=
  ⟨fun a b => by
    unfold templateKeyLe
    rcases lt_trichotomy a.page b.page with h | h | h
    · exact Or.inl (Or.inl h)
    · rcases le_total a.extraction_method b.extraction_method with h2 | h2
      · exact Or.inl (Or.inr ⟨h, h2⟩)
      · exact Or.inr (Or.inr ⟨h.symm, h2⟩)
    · exact Or.inr (Or.inl h)⟩

instance : IsTrans TemplateEntry templateKeyLe :=
  ⟨fun a b c hab hbc => by
    unfold templateKeyLe at *
    rcases hab with h1 | ⟨h1, h1m⟩ <;> rcases hbc with h2 | ⟨h2, h2m⟩
    · exact Or.inl (lt_trans h1 h2)
    · exact Or.inl (h2 ▸ h1)
    · exact Or.inl (h1 ▸ h2)
    · exact Or.inr ⟨h1.trans h2, le_trans h1m h2m⟩⟩

/-- The stable sort of the template records by `(page, extraction_method)`
(Python `sorted` is stable; `insertionSort` with a non-strict relation is
stable as well). -/
def sortTemplates (ts : List TemplateEntry) : List TemplateEntry :=
  List.insertionSort templateKeyLe ts

/-- Equality of grouping keys, as used by `itertools.groupby`. -/
def sameKey (a b : TemplateEntry) : Bool :=
  a.page == b.page && a.extraction_method == b.extraction_method

/-- `itertools.groupby`: split a list into maximal runs of records with
equal `(page, extraction_method)` keys. -/
def groupRuns : List TemplateEntry → List (List TemplateEntry)
  | [] => []
  | t :: rest => (t :: rest.takeWhile (sameKey t)) :: groupRuns (rest.dropWhile (sameKey t))
termination_by l => l.length
decreasing_by
  simp only [List.length_cons]
  exact Nat.lt_succ_of_le (List.Sublist.length_le (List.dropWhile_sublist _))

/-- Python `round(x, 3)` (round-half-to-even at 3 decimal places),
modelled over rationals; binary floating-point artifacts are not
modelled. -/
def roundHalfEven (x : Rat) : Int :=
  let f : Int := ⌊x⌋
  let r : Rat := x - f
  if r < 1 / 2 then f
  else if 1 / 2 < r then f + 1
  else if f % 2 = 0 then f else f + 1

/-- Rounding applied to each template rectangle coordinate. -/
def round3 (x : Rat) : Rat := ((roundHalfEven (x * 1000) : Int) : Rat) / 1000

/-- `_convert_template_option` from `tabula/template.py`: one
`TabulaOption` per template record, with the extraction method mapped to
the guess/lattice/stream flags and the rectangle re-ordered into
`(top, left, bottom, right)` = `(y1, x1, y2, x2)` rounded to 3 places.
All other fields keep the dataclass defaults. -/
def _convert_template_option (t : TemplateEntry) : TabulaOption :=
  { pages := some (.ofInt t.page)
    guess := t.extraction_method == "guess"
    lattice := t.extraction_method == "lattice"
    stream := t.extraction_method == "stream"
    area := some (.single [round3 t.y1, round3 t.x1, round3 t.y2, round3 t.x2]) }

/-- The flat value list of an option's single-region area (the
`cast(Iterable[float], e.area)` read in `load_template`; converted
template options always carry a single flat region). -/
def optionAreaVals (o : TabulaOption) : List Rat :=
  match o.area with
  | some (.single vals) => vals
  | _ => []

/-- The per-group body of the `load_template` loop: a singleton group
contributes its converted option unchanged; a larger group contributes
its first converted option with `area` replaced by the list of all
member regions and `multiple_tables` set. `groupby` never yields an
empty group, so the `[]` case is unreachable. -/
def processGroup (grp : List TemplateEntry) : TabulaOption :=
  let tmp := grp.map _convert_template_option
  match tmp with
  | [t] => t
  | t :: _ :: _ =>
    { t with area := some (.multi (tmp.map optionAreaVals)), multiple_tables := true }
  | [] => {}

/-- `load_template` from `tabula/template.py` (after JSON decoding, which
is not modelled): sort by `(page, extraction_method)`, group, and emit
one option per group. -/
def load_template (ts : List TemplateEntry) : List TabulaOption :=
  (groupRuns (sortTemplates ts)).map processGroup

/-- One cell of the raw tabula-java JSON output (`e["text"]`). -/
structure RawCell where
  text : String
deriving DecidableEq

/-- One table of the raw tabula-java JSON output (`table["data"]`). -/
structure RawTable where
  data : List (List RawCell)
deriving DecidableEq

/-- The `header` pandas option: the default `"infer"`, `None`, or an
explicit row index. -/
inductive HeaderOpt where
  | infer
  | noHeader
  | line (k : Int)
deriving DecidableEq

/-- The pandas options consumed by `_extract_from` /
`_convert_pandas_csv_options` (`columns`, `names` and `header` keys of
the `pandas_options` dict; `none` models an absent key, which Python
treats like a falsy present value here). -/
structure PandasOptions where
  columns : Option (List String) := none
  names : Option (List String) := none
  header : HeaderOpt := .infer
deriving DecidableEq

/-- Python truthiness of an optional string-list value. -/
def truthyStrList : Option (List String) → Bool
  | none => false
  | some l => l ≠ []

/-- `_convert_pandas_csv_options` from `tabula/io.py`: resolve the column
names (`names` key wins over the `columns` value) and the header line
number (`0` under `"infer"` with no column names, `None` otherwise). -/
def _convert_pandas_csv_options (names : Option (List String)) (header : HeaderOpt)
    (columns : Option (List String)) : Option (List String) × Option Int :=
  let cols := match names with
    | some v => some v
    | none => columns
  let hln : Option Int := match header with
    | .infer => if truthyStrList cols then none else some 0
    | .noHeader => none
    | .line k => some k
  (cols, hln)

/-- Cell text to a dataframe value: an empty text becomes `np.nan`
(modelled as `none`). -/
def cellText (c : RawCell) : Option String :=
  if c.text = "" then none else some c.text

/-- Python `list.pop(i)`: remove and return the element at index `i`
(negative indices count from the end); raises `IndexError` when out of
range. -/
def popAt (l : List (List (Option String))) (i : Int) :
    Except String (List (Option String) × List (List (Option String))) :=
  let idx : Int := if i < 0 then i + l.length else i
  if h : 0 ≤ idx ∧ idx.toNat < l.length then
    .ok (l.get ⟨idx.toNat, h.2⟩, l.eraseIdx idx.toNat)
  else .error "pop index out of range"

/-- Missing-header-cell synthesis from `_extract_from`: each `nan` header
cell becomes `"Unnamed: <n>"` with a counter over missing cells,
assigned left to right. -/
def synthesizeHeader : Nat → List (Option String) → List String
  | _, [] => []
  | i, none :: rest => ("Unnamed: " ++ toString i) :: synthesizeHeader (i + 1) rest
  | i, some s :: rest => s :: synthesizeHeader i rest

/-- Lookup in the `counts` mapping (`defaultdict(int)`: absent keys read
as 0). -/
def alookup : List (String × Nat) → String → Nat
  | [], _ => 0
  | (k, v) :: rest, key => if k = key then v else alookup rest key

/-- Update of the `counts` mapping. -/
def aset : List (String × Nat) → String → Nat → List (String × Nat)
  | [], key, v => [(key, v)]
  | (k, w) :: rest, key, v =>
    if k = key then (key, v) :: rest else (k, w) :: aset rest key v

/-- Measure for the termination of the `while cur_count > 0` loop: the
number of `counts` entries that are positive and whose key is at least
`n` characters long. -/
def liveCount (c : List (String × Nat)) (n : Nat) : Nat :=
  (c.filter fun p => decide (0 < p.2) && decide (n ≤ p.1.length)).length

theorem liveCount_nil (n : Nat) : liveCount [] n = 0 := rfl

theorem liveCount_cons (p : String × Nat) (rest : List (String × Nat)) (n : Nat) :
    liveCount (p :: rest) n
      = liveCount rest n + (if 0 < p.2 ∧ n ≤ p.1.length then 1 else 0) := by
  by_cases h1 : 0 < p.2 <;> by_cases h2 : n ≤ p.1.length <;>
    simp [liveCount, List.filter_cons, h1, h2]

theorem liveCount_mono (c : List (String × Nat)) {n m : Nat} (h : n ≤ m) :
    liveCount c m ≤ liveCount c n := by
  induction c with
  | nil => simp [liveCount_nil]
  | cons p rest ih =>
    rw [liveCount_cons, liveCount_cons]
    have hb : (if 0 < p.2 ∧ m ≤ p.1.length then 1 else 0)
        ≤ (if 0 < p.2 ∧ n ≤ p.1.length then 1 else 0) := by
      by_cases h1 : 0 < p.2 ∧ m ≤ p.1.length
      · have h2 : 0 < p.2 ∧ n ≤ p.1.length := ⟨h1.1, le_trans h h1.2⟩
        simp [h1, h2]
      · simp only [if_neg h1]
        exact Nat.zero_le _
    omega

theorem liveCount_aset_lt (c : List (String × Nat)) (col : String) (v : Nat)
    {m : Nat} (hcur : 0 < alookup c col) (hlen : col.length < m) :
    liveCount (aset c col v) m < liveCount c col.length := by
  induction c with
  | nil => simp [alookup] at hcur
  | cons p rest ih =>
    obtain ⟨k, w⟩ := p
    by_cases hk : k = col
    · subst hk
      have hw : 0 < w := by simpa [alookup] using hcur
      have hnotm : ¬ m ≤ k.length := not_le.mpr hlen
      have hrest : liveCount rest m ≤ liveCount rest k.length :=
        liveCount_mono rest (le_of_lt hlen)
      rw [show aset ((k, w) :: rest) k v = (k, v) :: rest by simp [aset]]
      rw [liveCount_cons, liveCount_cons]
      simp only [hnotm, and_false, if_false, hw, le_refl, and_true, if_true, true_and,
        if_pos (le_refl k.length)]
      omega
    · have hcur' : 0 < alookup rest col := by simpa [alookup, hk] using hcur
      have main := ih hcur'
      rw [show aset ((k, w) :: rest) col v = (k, w) :: aset rest col v by simp [aset, hk]]
      rw [liveCount_cons, liveCount_cons]
      dsimp only
      have hb : (if 0 < w ∧ m ≤ k.length then 1 else 0)
          ≤ (if 0 < w ∧ col.length ≤ k.length then 1 else 0) := by
        by_cases h1 : 0 < w ∧ m ≤ k.length
        · have h2 : 0 < w ∧ col.length ≤ k.length :=
            ⟨h1.1, le_trans (le_of_lt hlen) h1.2⟩
          simp [h1, h2]
        · simp only [if_neg h1]
          exact Nat.zero_le _
      omega

/-- The `while cur_count > 0` loop of the duplicate-column
disambiguation in `_extract_from`: while the current name has a positive
count, bump that count and append `"." + count` to the name. -/
def resolve (c : List (String × Nat)) (col : String) : List (String × Nat) × String :=
  let cur := alookup c col
  if h : 0 < cur then
    resolve (aset c col (cur + 1)) (col ++ "." ++ toString cur)
  else (c, col)
termination_by liveCount c col.length
decreasing_by
  refine liveCount_aset_lt c col _ h ?_
  have h1 : ("." : String).length = 1 := rfl
  have h2 : (col ++ "." ++ toString (alookup c col)).length
      = col.length + 1 + (toString (alookup c col)).length := by
    simp [String.length_append, h1]
  omega

/-- The `for idx, col in enumerate(_columns)` disambiguation loop:
resolve each name against the running counts, emit it, and record it
with count 1 (`counts[col] = cur_count + 1` with `cur_count = 0` after
the inner loop exits). -/
def dedupGo (c : List (String × Nat)) : List String → List String
  | [] => []
  | col :: rest =>
    let rc := resolve c col
    rc.2 :: dedupGo (aset rc.1 rc.2 (alookup rc.1 rc.2 + 1)) rest

/-- Duplicate-column disambiguation of `_extract_from`, starting from an
empty `defaultdict(int)`. -/
def dedupColumns (cols : List String) : List String := dedupGo [] cols

/-- One materialized table: the column names passed to `pd.DataFrame`
(`None` means pandas default numbering) and the data rows.  The
best-effort `pd.to_numeric` coercion of `_extract_from` transforms cell
values only (never the row or column structure) and is not modelled. -/
structure Frame where
  columns : Option (List String)
  data : List (List (Option String))
deriving DecidableEq

/-- The `for table in raw_json` loop of `_extract_from`: skip empty
tables; convert cells (`nan` for empty text); when the header line
number is an int and the resolved column names are falsy, pop the header
row from this table, synthesize missing cells, and disambiguate
duplicates. -/
def extractLoop (columns1 : Option (List String)) (hln : Option Int) :
    List RawTable → Except String (List Frame)
  | [] => .ok []
  | table :: rest =>
    if table.data = [] then extractLoop columns1 hln rest
    else
      let listData := table.data.map fun row => row.map cellText
      match hln, truthyStrList columns1 with
      | some k, false =>
        match popAt listData k with
        | .error e => .error e
        | .ok (hdr, body) =>
          let names := dedupColumns (synthesizeHeader 0 hdr)
          match extractLoop columns1 hln rest with
          | .error e => .error e
          | .ok frames => .ok ({ columns := some names, data := body } :: frames)
      | _, _ =>
        match extractLoop columns1 hln rest with
        | .error e => .error e
        | .ok frames => .ok ({ columns := columns1, data := listData } :: frames)

/-- `_extract_from` from `tabula/io.py` (dataframe construction and
numeric coercion abstracted as described on `Frame`). -/
def _extract_from (tables : List RawTable) (popts : PandasOptions) :
    Except String (List Frame) :=
  let columns0 := popts.columns
  let (columns1, hln) := _convert_pandas_csv_options popts.names popts.header columns0
  extractLoop columns1 hln tables

/-- The frame produced for a non-empty table under header inference:
its own first row (after `nan` conversion) becomes the header, the
remaining rows the data. -/
def inferFrame (t : RawTable) : Frame :=
  let listData := t.data.map fun row => row.map cellText
  { columns := some (dedupColumns (synthesizeHeader 0 listData.headI))
    data := listData.tail }

/-- The two JVM-silencing flags appended for the silent workaround
(`tabula/backend.py`). -/
def silentJavaFlags : List String :=
  ["-Dorg.slf4j.simpleLogger.defaultLogLevel=off",
   "-Dorg.apache.commons.logging.Log=org.apache.commons.logging.impl.NoOpLog"]

/-- State of a `SubprocessTabula` dispatcher.  `gen` is an allocation
identifier used to distinguish in-place mutation of the existing
instance from construction of a new one. -/
structure SubprocessTabula where
  gen : Nat
  java_options : List String
  encoding : String
deriving DecidableEq

/-- `SubprocessTabula.__init__`: the silent workaround extends the Java
options, then both settings are stored. -/
def newSubprocessTabula (gen : Nat) (java_options : List String) (silent : Bool)
    (encoding : String) : SubprocessTabula :=
  { gen
    java_options := if silent then java_options ++ silentJavaFlags else java_options
    encoding }

/-- Modelled from the spec: `SubprocessTabula.update_encoding` is invoked
by `_run` in `tabula/io.py` but its definition is missing from the
sources (only the caller is present).  Per the spec, when the dispatcher
is already in SUBPROCESS state, changed diagnostic-silence and
text-encoding settings "are applied to the existing dispatcher instance
(mutated in place) rather than creating a new one"; the silent setting
materializes as the same Java-option workaround the constructor
applies. -/
def update_encoding (s : SubprocessTabula) (encoding : String)
    (java_options : List String) (silent : Bool) : SubprocessTabula :=
  { s with
    encoding
    java_options := if silent then java_options ++ silentJavaFlags else java_options }

/-- The process-wide dispatcher (`_tabula_vm` in `tabula/io.py`): an
embedded JVM (`TabulaVm`) or a subprocess wrapper.  Only the details
needed for the dispatcher state machine are modelled. -/
inductive Dispatcher where
  | vm (gen : Nat) (tabulaLoaded : Bool)
  | subprocess (s : SubprocessTabula)
deriving DecidableEq

/-- The module-level dispatcher state: the memoized `_tabula_vm` and an
allocation counter for fresh dispatcher instances. -/
structure RunState where
  dispatcher : Option Dispatcher
  nextGen : Nat
deriving DecidableEq

/-- `_build_java_options` from `tabula/io.py`.  On Darwin the headless
flag is added only when every existing option is a prefix of
`"java.awt.headless"` (the source's `any(filter(r.find, _java_options))`
treats the find result `-1` as truthy and `0` as falsy); with utf-8
encoding the file-encoding flag is added unless some option mentions
`file.encoding`. -/
def _build_java_options (arg : Option (List String)) (encoding : String)
    (isDarwin : Bool) : List String :=
  let jo := arg.getD []
  let jo := if isDarwin && jo.all (fun opt => ("java.awt.headless").startsWith opt) then
      jo ++ ["-Djava.awt.headless=true"] else jo
  let jo := if encoding = "utf-8"
      && !(jo.any fun opt => (opt.splitOn "file.encoding").length != 1) then
      jo ++ ["-Dfile.encoding=UTF8"] else jo
  jo

/-- The dispatcher-management portion of `_run` from `tabula/io.py`:
force-subprocess replaces the dispatcher; an absent dispatcher is
created (embedded JVM when jpype imports, otherwise the subprocess
fallback — which allocates a `TabulaVm` first and then replaces it); an
existing subprocess dispatcher is updated in place; an existing embedded
dispatcher only warns about changed JVM options (no state change). -/
def _run (st : RunState) (o : TabulaOption) (javaOptionsArg : Option (List String))
    (encoding : String) (forceSubprocess jpypeAvailable isDarwin : Bool) : RunState :=
  let jo := _build_java_options javaOptionsArg encoding isDarwin
  let silent := truthyBoolOpt o.silent
  let st1 := if forceSubprocess then
      { dispatcher := some (.subprocess (newSubprocessTabula st.nextGen jo silent encoding))
        nextGen := st.nextGen + 1 }
    else st
  match st1.dispatcher with
  | none =>
    if jpypeAvailable then
      { dispatcher := some (.vm st1.nextGen true), nextGen := st1.nextGen + 1 }
    else
      { dispatcher := some (.subprocess (newSubprocessTabula (st1.nextGen + 1) jo silent encoding))
        nextGen := st1.nextGen + 2 }
  | some (.subprocess s) =>
    { st1 with dispatcher := some (.subprocess (update_encoding s encoding jo silent)) }
  | some (.vm _ _) => st1

theorem alookup_aset (c : List (String × Nat)) (k : String) (v : Nat) (n : String) :
    alookup (aset c k v) n = if k = n then v else alookup c n := by
  induction c with
  | nil => simp [aset, alookup]
  | cons p rest ih =>
    obtain ⟨k0, w⟩ := p
    by_cases hk : k0 = k
    · subst hk
      by_cases hn : k0 = n <;> simp [aset, alookup, hn]
    · by_cases hn : k0 = n
      · subst hn
        have hkn : ¬ k = k0 := fun he => hk he.symm
        simp [aset, alookup, hk, hkn]
      · simp [aset, alookup, hk, hn, ih]

theorem resolve_of_zero {c : List (String × Nat)} {col : String}
    (h : alookup c col = 0) : resolve c col = (c, col) := by
  rw [resolve]; simp [h]

theorem resolve_of_pos {c : List (String × Nat)} {col : String}
    (h : 0 < alookup c col) :
    resolve c col
      = resolve (aset c col (alookup c col + 1)) (col ++ "." ++ toString (alookup c col)) := by
  rw [resolve]; simp [h]

/-- The name returned by the disambiguation loop is fresh: its count in
the final state is 0. -/
theorem resolve_lookup (c : List (String × Nat)) (col : String) :
    alookup (resolve c col).1 (resolve c col).2 = 0 := by
  induction c, col using resolve.induct with
  | case1 c col cur h ih =>
    rw [resolve_of_pos h]
    exact ih
  | case2 c col cur h =>
    rw [resolve_of_zero (Nat.eq_zero_of_not_pos h)]
    exact Nat.eq_zero_of_not_pos h

/-- Counts never decrease across the disambiguation loop. -/
theorem resolve_le (c : List (String × Nat)) (col : String) (n : String) :
    alookup c n ≤ alookup (resolve c col).1 n := by
  induction c, col using resolve.induct with
  | case1 c col cur h ih =>
    rw [resolve_of_pos h]
    refine le_trans ?_ ih
    rw [alookup_aset]
    by_cases hc : col = n
    · subst hc; simp
    · simp [hc]
  | case2 c col cur h =>
    rw [resolve_of_zero (Nat.eq_zero_of_not_pos h)]

/-- A name with a positive count is never emitted again. -/
theorem dedupGo_not_mem (cols : List String) :
    ∀ (c : List (String × Nat)) (n : String), 1 ≤ alookup c n → n ∉ dedupGo c cols := by
  induction cols with
  | nil =>
    intro c n _ hmem
    simp [dedupGo] at hmem
  | cons col rest ih =>
    intro c n h hmem
    simp only [dedupGo] at hmem
    rcases List.mem_cons.mp hmem with heq | hmem2
    · have h1 := resolve_le c col n
      have h2 := resolve_lookup c col
      rw [← heq] at h2
      omega
    · refine ih _ n ?_ hmem2
      rw [alookup_aset]
      by_cases hc : (resolve c col).2 = n
      · simp [hc]
      · have h1 := resolve_le c col n
        simp only [hc, if_false]
        omega

theorem dedupGo_nodup (cols : List String) : ∀ c, (dedupGo c cols).Nodup := by
  induction cols with
  | nil => intro c; simp [dedupGo]
  | cons col rest ih =>
    intro c
    simp only [dedupGo]
    refine List.nodup_cons.mpr ⟨?_, ih _⟩
    apply dedupGo_not_mem
    rw [alookup_aset]
    simp

theorem dedupGo_length (cols : List String) : ∀ c, (dedupGo c cols).length = cols.length := by
  induction cols with
  | nil => intro c; simp [dedupGo]
  | cons col rest ih => intro c; simp [dedupGo, ih]

theorem synthesizeHeader_length (hdr : List (Option String)) :
    ∀ i : Nat, (synthesizeHeader i hdr).length = hdr.length := by
  induction hdr with
  | nil => intro i; simp [synthesizeHeader]
  | cons cell rest ih =>
    intro i
    cases cell <;> simp [synthesizeHeader, ih]

/-- C6: after missing-header-cell synthesis, duplicate column names are
disambiguated greedily left to right by appending `.1`, `.2`, … with a
per-distinct-base-name counter that never reuses an occupied name: the
header `["A", "A", "A"]` materializes as `["A", "A.1", "A.2"]`, and for
every header row the resulting names are pairwise distinct (and as many
as the header cells). -/
theorem duplicate_column_disambiguation :
    (∀ cols : List String, (dedupColumns cols).Nodup ∧ (dedupColumns cols).length = cols.length)
    ∧ (∀ hdr : List (Option String),
        (dedupColumns (synthesizeHeader 0 hdr)).Nodup
        ∧ (dedupColumns (synthesizeHeader 0 hdr)).length = hdr.length)
    ∧ synthesizeHeader 0 [some "A", some "A", some "A"] = ["A", "A", "A"]
    ∧ dedupColumns ["A", "A", "A"] = ["A", "A.1", "A.2"] := by
  refine ⟨fun cols => ⟨dedupGo_nodup cols [], dedupGo_length cols []⟩,
          fun hdr => ⟨dedupGo_nodup _ [], ?_⟩, rfl, ?_⟩
  · rw [dedupColumns, dedupGo_length, synthesizeHeader_length]
  · simp +decide [dedupColumns, dedupGo, resolve_of_pos, resolve_of_zero, alookup, aset]

/-- C10: `merge` is idempotent: merging an option with itself returns an
option equal to it field by field. -/
theorem merge_idempotent (x : TabulaOption) : x.merge x = x := by
  cases x
  simp [TabulaOption.merge]

/-- C3: `merge(override, base)` takes, independently for every field, the
override's value when it is truthy and the base's value otherwise; in
particular a falsy override (`False`, `0`, `None`, empty) never
suppresses a truthy base value, e.g. `guess=False` merged over
`guess=True` yields `True`. -/
theorem merge_field_semantics (x y : TabulaOption) :
    ((truthyPages x.pages = true → (x.merge y).pages = x.pages)
      ∧ (truthyPages x.pages = false → (x.merge y).pages = y.pages))
    ∧ ((x.guess = true → (x.merge y).guess = x.guess)
      ∧ (x.guess = false → (x.merge y).guess = y.guess))
    ∧ ((truthyArea x.area = true → (x.merge y).area = x.area)
      ∧ (truthyArea x.area = false → (x.merge y).area = y.area))
    ∧ ((x.relative_area = true → (x.merge y).relative_area = x.relative_area)
      ∧ (x.relative_area = false → (x.merge y).relative_area = y.relative_area))
    ∧ ((x.lattice = true → (x.merge y).lattice = x.lattice)
      ∧ (x.lattice = false → (x.merge y).lattice = y.lattice))
    ∧ ((x.stream = true → (x.merge y).stream = x.stream)
      ∧ (x.stream = false → (x.merge y).stream = y.stream))
    ∧ ((truthyStr x.password = true → (x.merge y).password = x.password)
      ∧ (truthyStr x.password = false → (x.merge y).password = y.password))
    ∧ ((truthyBoolOpt x.silent = true → (x.merge y).silent = x.silent)
      ∧ (truthyBoolOpt x.silent = false → (x.merge y).silent = y.silent))
    ∧ ((truthyCols x.columns = true → (x.merge y).columns = x.columns)
      ∧ (truthyCols x.columns = false → (x.merge y).columns = y.columns))
    ∧ ((x.relative_columns = true → (x.merge y).relative_columns = x.relative_columns)
      ∧ (x.relative_columns = false → (x.merge y).relative_columns = y.relative_columns))
    ∧ ((truthyStr x.format = true → (x.merge y).format = x.format)
      ∧ (truthyStr x.format = false → (x.merge y).format = y.format))
    ∧ ((truthyStr x.batch = true → (x.merge y).batch = x.batch)
      ∧ (truthyStr x.batch = false → (x.merge y).batch = y.batch))
    ∧ ((truthyStr x.output_path = true → (x.merge y).output_path = x.output_path)
      ∧ (truthyStr x.output_path = false → (x.merge y).output_path = y.output_path))
    ∧ ((truthyStr x.options = true → (x.merge y).options = x.options)
      ∧ (truthyStr x.options = false → (x.merge y).options = y.options))
    ∧ ((x.multiple_tables = true → (x.merge y).multiple_tables = x.multiple_tables)
      ∧ (x.multiple_tables = false → (x.merge y).multiple_tables = y.multiple_tables))
    ∧ (TabulaOption.merge { guess := false } { guess := true }).guess = true := by
  refine ⟨⟨?_, ?_⟩, ⟨?_, ?_⟩, ⟨?_, ?_⟩, ⟨?_, ?_⟩, ⟨?_, ?_⟩, ⟨?_, ?_⟩, ⟨?_, ?_⟩, ⟨?_, ?_⟩,
    ⟨?_, ?_⟩, ⟨?_, ?_⟩, ⟨?_, ?_⟩, ⟨?_, ?_⟩, ⟨?_, ?_⟩, ⟨?_, ?_⟩, ⟨?_, ?_⟩, ?_⟩
  all_goals first
    | decide
    | (intro h; simp [TabulaOption.merge, h])

/-- C8 (counterexample): `build_option_list` is not side-effect free — on
an option with a truthy area it clears `self.guess` in place
(`self.guess = False` in the source), so the option after rendering
differs from the option before. -/
theorem build_option_list_mutates_guess :
    (TabulaOption.build_option_list
        { pages := some (.ofInt 1), guess := true, area := some (.single [10, 10, 100, 50]) }).2
      ≠ { pages := some (.ofInt 1), guess := true, area := some (.single [10, 10, 100, 50]) } := by
  decide

theorem build_option_list_fst (o : TabulaOption) : (o.build_option_list).1 = buildTokens o := rfl

theorem validate_error_kind {vals : List Rat} {e : OptionError}
    (h : _validate_area vals = .error e) : e.isInvalidRegion = true := by
  rcases vals with _ | ⟨t, _ | ⟨l, _ | ⟨b, _ | ⟨r, _ | ⟨x, rest⟩⟩⟩⟩⟩ <;>
    simp only [_validate_area] at h
  case cons.cons.cons.cons.nil =>
    by_cases h1 : b ≤ t
    · rw [if_pos h1] at h
      simp only [Except.error.injEq] at h
      subst h
      rfl
    · by_cases h2 : r ≤ l
      · rw [if_neg h1, if_pos h2] at h
        simp only [Except.error.injEq] at h
        subst h
        rfl
      · rw [if_neg h1, if_neg h2] at h
        exact absurd h (by simp)
  all_goals
    simp only [Except.error.injEq] at h
    subst h
    rfl

theorem renderAreas_error_kind {rel : Bool} :
    ∀ {rs : List (List Rat)} {opts : List String} {m : Bool} {e : OptionError},
      renderAreas rel rs opts m = .error e → e.isInvalidRegion = true := by
  intro rs
  induction rs with
  | nil =>
    intro opts m e h
    simp [renderAreas] at h
  | cons r rest ih =>
    intro opts m e h
    simp only [renderAreas] at h
    cases hv : _validate_area r with
    | error e2 =>
      rw [hv] at h
      simp only [Except.error.injEq] at h
      subst h
      exact validate_error_kind hv
    | ok u =>
      rw [hv] at h
      exact ih h

theorem renderAreas_error_of_mem (rel : Bool) {r : List Rat} {e : OptionError} :
    ∀ {rs : List (List Rat)}, r ∈ rs → _validate_area r = .error e →
      ∀ (opts : List String) (m : Bool), ∃ e2, renderAreas rel rs opts m = .error e2 := by
  intro rs
  induction rs with
  | nil => intro hr; simp at hr
  | cons r0 rest ih =>
    intro hr he opts m
    cases hv : _validate_area r0 with
    | error e2 => exact ⟨e2, by simp [renderAreas, hv]⟩
    | ok u =>
      rcases List.mem_cons.mp hr with rfl | hr2
      · rw [hv] at he
        simp at he
      · obtain ⟨e2, h2⟩ := ih hr2 he (opts ++ ["--area", _format_with_relative r0 rel]) true
        exact ⟨e2, by simp [renderAreas, hv, h2]⟩

theorem renderAreas_error_indep {rel : Bool} {e : OptionError} :
    ∀ {rs : List (List Rat)} {opts : List String} {m : Bool},
      renderAreas rel rs opts m = .error e →
      ∀ (opts2 : List String) (m2 : Bool), renderAreas rel rs opts2 m2 = .error e := by
  intro rs
  induction rs with
  | nil =>
    intro opts m h
    simp [renderAreas] at h
  | cons r rest ih =>
    intro opts m h opts2 m2
    simp only [renderAreas] at h ⊢
    cases hv : _validate_area r with
    | error e2 => rw [hv] at h; exact h
    | ok u => rw [hv] at h; exact ih h _ _

theorem areaPhase_single_error {o : TabulaOption} {vals : List Rat} {e : OptionError}
    (ha : o.area = some (.single vals)) (hv : vals ≠ [])
    (he : _validate_area vals = .error e) :
    ∀ opts, areaPhase o opts = .error e := by
  intro opts
  simp [areaPhase, ha, truthyArea, hv, he]

theorem areaPhase_multi_error {o : TabulaOption} {rs : List (List Rat)} {r : List Rat}
    {e : OptionError} (ha : o.area = some (.multi rs)) (hr : r ∈ rs)
    (he : _validate_area r = .error e) :
    ∀ opts, ∃ e2, areaPhase o opts = .error e2 ∧ e2.isInvalidRegion = true := by
  intro opts
  have hrs : rs ≠ [] := by rintro rfl; simp at hr
  obtain ⟨e2, h2⟩ := renderAreas_error_of_mem o.relative_area hr he opts false
  exact ⟨e2, by simp [areaPhase, ha, truthyArea, hrs, h2], renderAreas_error_kind h2⟩

theorem buildTokens_error_of_areaPhase {o : TabulaOption} {e : OptionError}
    (h : ∀ opts, areaPhase o opts = .error e) : buildTokens o = .error e := by
  simp [buildTokens, h]

/-- C2: a supplied region of interest (or any member of a nested region
list) that does not have exactly 4 values, or has `top ≥ bottom`, or has
`left ≥ right`, makes rendering fail with an invalid-region error; the
region `[10, 10, 5, 50]` raises, and a 4-value region with
`top < bottom` and `left < right` never raises. -/
theorem invalid_region_rejection :
    (∀ vals : List Rat, _validate_area vals = .ok ()
        ↔ ∃ t l b r, vals = [t, l, b, r] ∧ t < b ∧ l < r)
    ∧ (∀ (o : TabulaOption) (vals : List Rat) (e : OptionError),
        o.area = some (.single vals) → vals ≠ [] → _validate_area vals = .error e →
        ∃ e2, (o.build_option_list).1 = .error e2 ∧ e2.isInvalidRegion = true)
    ∧ (∀ (o : TabulaOption) (rs : List (List Rat)) (r : List Rat) (e : OptionError),
        o.area = some (.multi rs) → r ∈ rs → _validate_area r = .error e →
        ∃ e2, (o.build_option_list).1 = .error e2 ∧ e2.isInvalidRegion = true)
    ∧ _validate_area [10, 10, 5, 50] = .error (.invalidRegionVertical 10 5)
    ∧ (∀ t l b r : Rat, t < b → l < r → _validate_area [t, l, b, r] = .ok ()) := by
  refine ⟨?_, ?_, ?_, ?_, ?_⟩
  · intro vals
    rcases vals with _ | ⟨t, _ | ⟨l, _ | ⟨b, _ | ⟨r, _ | ⟨x, rest⟩⟩⟩⟩⟩ <;>
      simp only [_validate_area]
    case cons.cons.cons.cons.nil =>
      constructor
      · intro h
        by_cases h1 : b ≤ t
        · rw [if_pos h1] at h
          exact absurd h (by simp)
        · by_cases h2 : r ≤ l
          · rw [if_neg h1, if_pos h2] at h
            exact absurd h (by simp)
          · exact ⟨t, l, b, r, rfl, not_le.mp h1, not_le.mp h2⟩
      · rintro ⟨t2, l2, b2, r2, heq, hb, hr⟩
        obtain ⟨rfl, rfl, rfl, rfl⟩ : t = t2 ∧ l = l2 ∧ b = b2 ∧ r = r2 := by
          simpa using heq
        rw [if_neg (not_le.mpr hb), if_neg (not_le.mpr hr)]
    all_goals simp
  · intro o vals e ha hv he
    exact ⟨e, buildTokens_error_of_areaPhase (areaPhase_single_error ha hv he),
      validate_error_kind he⟩
  · intro o rs r e ha hr he
    obtain ⟨e2, h2⟩ := renderAreas_error_of_mem o.relative_area hr he [] false
    have hk := renderAreas_error_kind h2
    have hrs : rs ≠ [] := by rintro rfl; simp at hr
    have h3 : ∀ opts, areaPhase o opts = .error e2 := by
      intro opts
      have h4 := renderAreas_error_indep h2 opts false
      simp [areaPhase, ha, truthyArea, hrs, h4]
    exact ⟨e2, buildTokens_error_of_areaPhase h3, hk⟩
  · rfl
  · intro t l b r hb hr
    simp only [_validate_area]
    rw [if_neg (not_le.mpr hb), if_neg (not_le.mpr hr)]

theorem sortedCols_eq_iff (cs : List Rat) :
    cs = sortedCols cs ↔ List.Sorted (· ≤ ·) cs := by
  constructor
  · intro h
    rw [h]
    exact List.sorted_insertionSort _ cs
  · intro h
    exact (List.Sorted.insertionSort_eq h).symm

/-- C9: rendering an option carrying column boundaries raises the
unsorted-columns error exactly when the boundaries are not
non-decreasing, and otherwise succeeds and emits a single comma-joined
`--columns` token; `[50, 10, 90]` raises and `[10, 50, 90]` succeeds. -/
theorem unsorted_columns_rejection (cs : List Rat) (hne : cs ≠ []) :
    ((TabulaOption.build_option_list { columns := some cs }).1 = .error .unsortedColumns
        ↔ ¬ List.Sorted (· ≤ ·) cs)
    ∧ (List.Sorted (· ≤ ·) cs →
        (TabulaOption.build_option_list { columns := some cs }).1
          = .ok ["--guess", "--columns", _format_with_relative cs false])
    ∧ (TabulaOption.build_option_list { columns := some [50, 10, 90] }).1
        = .error .unsortedColumns
    ∧ (TabulaOption.build_option_list { columns := some [10, 50, 90] }).1
        = .ok ["--guess", "--columns", "10,50,90"] := by
  have key := sortedCols_eq_iff cs
  have htc : truthyCols (some cs) = true := by simp [truthyCols, hne]
  have h2 : buildTokens { columns := some cs }
      = match columnsPhase { columns := some cs } ["--guess"] with
        | .error e => .error e
        | .ok opts => .ok opts := rfl
  have h3 : columnsPhase { columns := some cs } ["--guess"]
      = if cs ≠ sortedCols cs then .error .unsortedColumns
        else .ok ["--guess", "--columns", _format_with_relative cs false] := by
    simp only [columnsPhase, htc, if_true, Option.getD_some]
    rfl
  have hbt : buildTokens { columns := some cs }
      = if cs ≠ sortedCols cs then .error .unsortedColumns
        else .ok ["--guess", "--columns", _format_with_relative cs false] := by
    rw [h2, h3]
    by_cases hP : cs ≠ sortedCols cs
    · rw [if_pos hP]
    · rw [if_neg hP]
  refine ⟨?_, ?_, ?_, ?_⟩
  · rw [build_option_list_fst, hbt]
    constructor
    · intro h hs
      rw [if_neg (not_not_intro (key.mpr hs))] at h
      simp at h
    · intro hs
      rw [if_pos (fun heq => hs (key.mp heq))]
  · intro hs
    rw [build_option_list_fst, hbt, if_neg (not_not_intro (key.mpr hs))]
  · rfl
  · rfl

theorem groupRuns_nil : groupRuns [] = [] := by
  rw [groupRuns]

theorem groupRuns_cons (t : TemplateEntry) (rest : List TemplateEntry) :
    groupRuns (t :: rest)
      = (t :: rest.takeWhile (sameKey t)) :: groupRuns (rest.dropWhile (sameKey t)) := by
  rw [groupRuns]

theorem groupRuns_flatten : ∀ l : List TemplateEntry, (groupRuns l).flatten = l := by
  intro l
  induction l using groupRuns.induct with
  | case1 => simp [groupRuns_nil]
  | case2 t rest ih =>
    rw [groupRuns_cons]
    simp only [List.flatten_cons]
    rw [ih]
    simp [List.takeWhile_append_dropWhile]

theorem groupRuns_ne_nil : ∀ l : List TemplateEntry, ∀ g ∈ groupRuns l, g ≠ [] := by
  intro l
  induction l using groupRuns.induct with
  | case1 => simp [groupRuns_nil]
  | case2 t rest ih =>
    intro g hg
    rw [groupRuns_cons] at hg
    rcases List.mem_cons.mp hg with rfl | hg2
    · simp
    · exact ih g hg2

theorem sameKey_refl (a : TemplateEntry) : sameKey a a = true := by
  simp [sameKey]

theorem sameKey_symm {a b : TemplateEntry} (h : sameKey a b = true) : sameKey b a = true := by
  simp only [sameKey, Bool.and_eq_true, beq_iff_eq] at *
  exact ⟨h.1.symm, h.2.symm⟩

theorem sameKey_trans {a b c : TemplateEntry} (h1 : sameKey a b = true)
    (h2 : sameKey b c = true) : sameKey a c = true := by
  simp only [sameKey, Bool.and_eq_true, beq_iff_eq] at *
  exact ⟨h1.1.trans h2.1, h1.2.trans h2.2⟩

theorem groupRuns_uniform :
    ∀ l : List TemplateEntry, ∀ g ∈ groupRuns l, ∀ a ∈ g, ∀ b ∈ g, sameKey a b = true := by
  intro l
  induction l using groupRuns.induct with
  | case1 => simp [groupRuns_nil]
  | case2 t rest ih =>
    intro g hg a ha b hb
    rw [groupRuns_cons] at hg
    rcases List.mem_cons.mp hg with rfl | hg2
    · have key : ∀ x ∈ t :: rest.takeWhile (sameKey t), sameKey t x = true := by
        intro x hx
        rcases List.mem_cons.mp hx with rfl | hx2
        · exact sameKey_refl _
        · exact List.mem_takeWhile_imp hx2
      exact sameKey_trans (sameKey_symm (key a ha)) (key b hb)
    · exact ih g hg2 a ha b hb

theorem processGroup_multi (g : List TemplateEntry) (h : 2 ≤ g.length) :
    (processGroup g).area
        = some (.multi ((g.map _convert_template_option).map optionAreaVals))
      ∧ (processGroup g).multiple_tables = true := by
  rcases g with _ | ⟨a, _ | ⟨b, rest⟩⟩
  · simp at h
  · simp at h
  · simp [processGroup]

theorem forall2_processGroup (gs : List (List TemplateEntry))
    (hne : ∀ g ∈ gs, g ≠ [])
    (huni : ∀ g ∈ gs, ∀ a ∈ g, ∀ b ∈ g, sameKey a b = true) :
    List.Forall₂ (fun g o =>
        g ≠ [] ∧ (∀ a ∈ g, ∀ b ∈ g, sameKey a b = true)
        ∧ (∀ t, g = [t] → o = _convert_template_option t)
        ∧ (2 ≤ g.length →
            o.area = some (.multi ((g.map _convert_template_option).map optionAreaVals))
            ∧ o.multiple_tables = true))
      gs (gs.map processGroup) := by
  induction gs with
  | nil => simp
  | cons g rest ih =>
    simp only [List.map_cons]
    refine List.Forall₂.cons ⟨hne g (List.mem_cons_self g rest),
        huni g (List.mem_cons_self g rest), ?_, fun h2 => processGroup_multi g h2⟩ ?_
    · intro t hgt
      subst hgt
      rfl
    · exact ih (fun g2 hg2 => hne g2 (List.mem_cons_of_mem g hg2))
        (fun g2 hg2 => huni g2 (List.mem_cons_of_mem g hg2))

theorem round3_natCast (n : Nat) : round3 (n : Rat) = n := by
  unfold round3 roundHalfEven
  have h1 : ((n : Rat) * 1000) = ((n * 1000 : Nat) : Rat) := by push_cast; ring
  rw [h1, Int.floor_natCast]
  simp

/-- C4: `load_template` groups template regions by `(page,
extraction_method)` after a stable sort by that pair: the sorted list is
a permutation of the input and sorted by the pair; the groups partition
it; every group is non-empty and key-uniform; a singleton group yields
its converted option unchanged and a larger group yields one option
whose area is the list of all member regions in post-grouping order with
the multi-table flag set.  The concrete input with two `(page 1,
lattice)` regions and one `(page 2, guess)` region yields exactly two
options, the first with a two-element region list and the flag set. -/
theorem load_template_grouping :
    (∀ ts : List TemplateEntry,
      (sortTemplates ts).Perm ts
      ∧ List.Sorted templateKeyLe (sortTemplates ts)
      ∧ (groupRuns (sortTemplates ts)).flatten = sortTemplates ts
      ∧ (load_template ts).length = (groupRuns (sortTemplates ts)).length
      ∧ List.Forall₂ (fun g o =>
          g ≠ [] ∧ (∀ a ∈ g, ∀ b ∈ g, sameKey a b = true)
          ∧ (∀ t, g = [t] → o = _convert_template_option t)
          ∧ (2 ≤ g.length →
              o.area = some (.multi ((g.map _convert_template_option).map optionAreaVals))
              ∧ o.multiple_tables = true))
        (groupRuns (sortTemplates ts)) (load_template ts))
    ∧ load_template
        [{ page := 2, extraction_method := "guess", x1 := 1, y1 := 2, x2 := 3, y2 := 4 },
         { page := 1, extraction_method := "lattice", x1 := 10, y1 := 20, x2 := 30, y2 := 40 },
         { page := 1, extraction_method := "lattice", x1 := 50, y1 := 60, x2 := 70, y2 := 80 }]
      = [{ pages := some (.ofInt 1), guess := false, lattice := true,
           area := some (.multi [[20, 10, 40, 30], [60, 50, 80, 70]]),
           multiple_tables := true },
         { pages := some (.ofInt 2), guess := true,
           area := some (.single [2, 1, 4, 3]) }] := by
  constructor
  · intro ts
    refine ⟨List.perm_insertionSort _ ts, List.sorted_insertionSort _ ts,
      groupRuns_flatten _, by simp [load_template], ?_⟩
    exact forall2_processGroup _ (groupRuns_ne_nil _) (groupRuns_uniform _)
  · simp only [load_template]
    rw [show sortTemplates
          [{ page := 2, extraction_method := "guess", x1 := 1, y1 := 2, x2 := 3, y2 := 4 },
           { page := 1, extraction_method := "lattice", x1 := 10, y1 := 20, x2 := 30, y2 := 40 },
           { page := 1, extraction_method := "lattice", x1 := 50, y1 := 60, x2 := 70, y2 := 80 }]
        = [{ page := 1, extraction_method := "lattice", x1 := 10, y1 := 20, x2 := 30, y2 := 40 },
           { page := 1, extraction_method := "lattice", x1 := 50, y1 := 60, x2 := 70, y2 := 80 },
           { page := 2, extraction_method := "guess", x1 := 1, y1 := 2, x2 := 3, y2 := 4 }]
      from by norm_num [sortTemplates, List.insertionSort, List.orderedInsert, templateKeyLe]]
    rw [show groupRuns
          [{ page := 1, extraction_method := "lattice", x1 := 10, y1 := 20, x2 := 30, y2 := 40 },
           { page := 1, extraction_method := "lattice", x1 := 50, y1 := 60, x2 := 70, y2 := 80 },
           { page := 2, extraction_method := "guess", x1 := 1, y1 := 2, x2 := 3, y2 := 4 }]
        = [[{ page := 1, extraction_method := "lattice", x1 := 10, y1 := 20, x2 := 30, y2 := 40 },
            { page := 1, extraction_method := "lattice", x1 := 50, y1 := 60, x2 := 70, y2 := 80 }],
           [{ page := 2, extraction_method := "guess", x1 := 1, y1 := 2, x2 := 3, y2 := 4 }]]
      from by simp +decide [groupRuns_cons, groupRuns_nil, sameKey]]
    simp +decide [processGroup, _convert_template_option, optionAreaVals, round3_natCast]
    and_intros <;> exact_mod_cast round3_natCast _

theorem ite_append (c : Prop) [Decidable c] (acc t : List String) :
    (if c then acc ++ t else acc) = acc ++ (if c then t else []) := by
  split_ifs <;> simp

theorem areaPhase_none {o : TabulaOption} (ho : o.area = none) (opts : List String) :
    areaPhase o opts = .ok (opts, o.guess, false) := by
  simp [areaPhase, ho, truthyArea]

theorem areaPhase_single_empty {o : TabulaOption} (ho : o.area = some (.single []))
    (opts : List String) : areaPhase o opts = .ok (opts, o.guess, false) := by
  simp [areaPhase, ho, truthyArea]

theorem areaPhase_single_eq {o : TabulaOption} {vals : List Rat}
    (ho : o.area = some (.single vals)) (hv : vals ≠ []) (opts : List String) :
    areaPhase o opts
      = match _validate_area vals with
        | .error e => .error e
        | .ok _ =>
          .ok (opts ++ ["--area", _format_with_relative vals o.relative_area], false, false) := by
  simp [areaPhase, ho, truthyArea, hv]

theorem areaPhase_multi_empty {o : TabulaOption} (ho : o.area = some (.multi []))
    (opts : List String) : areaPhase o opts = .ok (opts, o.guess, false) := by
  simp [areaPhase, ho, truthyArea]

theorem areaPhase_multi_eq {o : TabulaOption} {rs : List (List Rat)}
    (ho : o.area = some (.multi rs)) (hrs : rs ≠ []) (opts : List String) :
    areaPhase o opts
      = match renderAreas o.relative_area rs opts false with
        | .error e => .error e
        | .ok (opts2, multA) => .ok (opts2, false, multA) := by
  simp [areaPhase, ho, truthyArea, hrs]

theorem renderAreas_ok {rel : Bool} :
    ∀ {rs : List (List Rat)} {opts : List String} {m : Bool} {opts2 : List String} {m2 : Bool},
      renderAreas rel rs opts m = .ok (opts2, m2) →
      opts2 = opts ++ (rs.map fun r => ["--area", _format_with_relative r rel]).flatten
        ∧ m2 = (m || !rs.isEmpty) := by
  intro rs
  induction rs with
  | nil =>
    intro opts m opts2 m2 h
    simp only [renderAreas, Except.ok.injEq, Prod.mk.injEq] at h
    obtain ⟨h1, h2⟩ := h
    subst h1 h2
    simp
  | cons r rest ih =>
    intro opts m opts2 m2 h
    simp only [renderAreas] at h
    cases hv : _validate_area r with
    | error e =>
      rw [hv] at h
      exact absurd h (by simp)
    | ok u =>
      rw [hv] at h
      obtain ⟨h1, h2⟩ := ih h
      subst h1 h2
      constructor
      · simp [List.append_assoc]
      · simp

theorem areaPhase_ok {o : TabulaOption} {opts opts2 : List String} {g m : Bool}
    (h : areaPhase o opts = .ok (opts2, g, m)) :
    opts2 = opts ++ areaTokens o
      ∧ g = (if truthyArea o.area then false else o.guess)
      ∧ m = multiAreaRequest o := by
  rcases ha : o.area with _ | ⟨vals | rs⟩
  · rw [areaPhase_none ha] at h
    simp only [Except.ok.injEq, Prod.mk.injEq] at h
    obtain ⟨h1, h2, h3⟩ := h
    subst h1 h2 h3
    simp [areaTokens, multiAreaRequest, truthyArea, ha]
  · by_cases hv : vals = []
    · subst hv
      rw [areaPhase_single_empty ha] at h
      simp only [Except.ok.injEq, Prod.mk.injEq] at h
      obtain ⟨h1, h2, h3⟩ := h
      subst h1 h2 h3
      simp [areaTokens, multiAreaRequest, truthyArea, ha]
    · rw [areaPhase_single_eq ha hv] at h
      cases hval : _validate_area vals with
      | error e =>
        rw [hval] at h
        exact absurd h (by simp)
      | ok u =>
        rw [hval] at h
        simp only [Except.ok.injEq, Prod.mk.injEq] at h
        obtain ⟨h1, h2, h3⟩ := h
        subst h1 h2 h3
        simp [areaTokens, multiAreaRequest, truthyArea, ha, hv]
  · by_cases hrs : rs = []
    · subst hrs
      rw [areaPhase_multi_empty ha] at h
      simp only [Except.ok.injEq, Prod.mk.injEq] at h
      obtain ⟨h1, h2, h3⟩ := h
      subst h1 h2 h3
      simp [areaTokens, multiAreaRequest, truthyArea, ha]
    · rw [areaPhase_multi_eq ha hrs] at h
      cases hra : renderAreas o.relative_area rs opts false with
      | error e =>
        rw [hra] at h
        exact absurd h (by simp)
      | ok pr =>
        obtain ⟨opts3, m3⟩ := pr
        rw [hra] at h
        obtain ⟨ho3, hm3⟩ := renderAreas_ok hra
        simp only [Except.ok.injEq, Prod.mk.injEq] at h
        obtain ⟨h1, h2, h3⟩ := h
        subst h1 h2 h3
        subst ho3 hm3
        rcases rs with _ | ⟨r0, rest⟩
        · exact absurd rfl hrs
        · simp [areaTokens, multiAreaRequest, truthyArea, ha]

theorem columnsPhase_ok {o : TabulaOption} {opts opts2 : List String}
    (h : columnsPhase o opts = .ok opts2) : opts2 = opts ++ columnsTokens o := by
  cases ht : truthyCols o.columns with
  | false =>
    simp only [columnsPhase, ht] at h
    simp only [Bool.false_eq_true, if_false, Except.ok.injEq] at h
    subst h
    simp [columnsTokens, ht]
  | true =>
    simp only [columnsPhase, ht, if_true] at h
    by_cases hs : (o.columns.getD []) ≠ sortedCols (o.columns.getD [])
    · rw [if_pos hs] at h
      exact absurd h (by simp)
    · rw [if_neg hs] at h
      simp only [Except.ok.injEq] at h
      subst h
      simp [columnsTokens, ht]

/-- C1: for every option that renders successfully, the argument tokens
come in the fixed stable order: raw pass-through tokens, `--pages`, one
`--area` per region, `--lattice`, `--stream`, `--guess` (only when guess
survives the area block and no multi-region request is present),
`--format`, `--outfile`, `--columns`, `--password`, `--batch`,
`--silent`; each group is omitted when its field is falsy.  Determinism
is inherent: the embedding is a pure function of the option. -/
theorem build_option_list_token_order (o : TabulaOption) (ts : List String)
    (h : (o.build_option_list).1 = .ok ts) :
    ts = rawTokens o ++ pagesTokens o ++ areaTokens o ++ latticeTokens o ++ streamTokens o
      ++ guessTokens o ++ formatTokens o ++ outfileTokens o ++ columnsTokens o
      ++ passwordTokens o ++ batchTokens o ++ silentTokens o := by
  rw [build_option_list_fst] at h
  simp only [buildTokens] at h
  split at h
  · exact absurd h (by simp)
  · rename_i res opts1 g mA heq
    obtain ⟨h1, h2, h3⟩ := areaPhase_ok heq
    subst h1 h2 h3
    split at h
    · exact absurd h (by simp)
    · rename_i res2 opts2 heq2
      have h4 := columnsPhase_ok heq2
      subst h4
      simp only [Except.ok.injEq] at h
      subst h
      simp only [ite_append]
      simp [rawTokens, pagesTokens, latticeTokens, streamTokens, guessTokens, formatTokens,
        outfileTokens, passwordTokens, batchTokens, silentTokens, List.append_assoc]

theorem popAt_zero (a : List (Option String)) (l : List (List (Option String))) :
    popAt (a :: l) 0 = .ok (a, l) := by
  simp [popAt]

theorem extractLoop_skip_empty {t : RawTable} (ht : t.data = [])
    (rest : List RawTable) (columns1 : Option (List String)) (hln : Option Int) :
    extractLoop columns1 hln (t :: rest) = extractLoop columns1 hln rest := by
  simp [extractLoop, ht]

theorem extractLoop_infer_cons (t : RawTable) (rest : List RawTable)
    (row : List RawCell) (rows : List (List RawCell)) (ht : t.data = row :: rows) :
    extractLoop none (some 0) (t :: rest)
      = match extractLoop none (some 0) rest with
        | .error e => .error e
        | .ok frames => .ok (inferFrame t :: frames) := by
  have hne : t.data ≠ [] := by rw [ht]; simp
  simp only [extractLoop, if_neg hne]
  rw [ht]
  simp only [List.map_cons]
  rw [show truthyStrList none = false from rfl]
  dsimp only
  rw [popAt_zero]
  simp only [inferFrame, ht, List.map_cons, List.headI, List.tail_cons]

/-- C5 (counterexample): with no explicit column names and header policy
"infer", the first remaining row of EVERY table is consumed as that
table's header — the second table's first row `["c"]` is not left intact
but becomes its header, leaving only one data row. -/
theorem header_consumed_from_every_table :
    _extract_from
        [{ data := [[{ text := "a" }], [{ text := "b" }]] },
         { data := [[{ text := "c" }], [{ text := "d" }]] }]
        { columns := none, names := none, header := .infer }
      = .ok [{ columns := some ["a"], data := [[some "b"]] },
             { columns := some ["c"], data := [[some "d"]] }]
    ∧ ([[some "d"]] : List (List (Option String))) ≠ [[some "c"], [some "d"]] := by
  constructor
  · have hb : _extract_from
        [{ data := [[{ text := "a" }], [{ text := "b" }]] },
         { data := [[{ text := "c" }], [{ text := "d" }]] }]
        { columns := none, names := none, header := .infer }
        = extractLoop none (some 0)
            [{ data := [[{ text := "a" }], [{ text := "b" }]] },
             { data := [[{ text := "c" }], [{ text := "d" }]] }] := rfl
    rw [hb]
    rw [extractLoop_infer_cons _ _ [{ text := "a" }] [[{ text := "b" }]] rfl]
    rw [extractLoop_infer_cons _ _ [{ text := "c" }] [[{ text := "d" }]] rfl]
    rw [show extractLoop none (some 0) [] = .ok [] from rfl]
    simp +decide [inferFrame, cellText, dedupColumns, dedupGo, resolve_of_zero,
      alookup, synthesizeHeader]
  · decide

/-- C5 (amended): under header inference with no explicit column names,
EVERY non-empty table's first remaining row is consumed as that table's
own header row and removed from that table's data (not only the first
table's). -/
theorem header_inference_every_table (tables : List RawTable) :
    _extract_from tables { columns := none, names := none, header := .infer }
      = .ok ((tables.filter fun t => !t.data.isEmpty).map inferFrame) := by
  have hb : _extract_from tables { columns := none, names := none, header := .infer }
      = extractLoop none (some 0) tables := rfl
  rw [hb]
  clear hb
  induction tables with
  | nil => rfl
  | cons t rest ih =>
    rcases ht : t.data with _ | ⟨row, rows⟩
    · rw [extractLoop_skip_empty ht]
      rw [ih]
      simp [List.filter_cons, ht]
    · rw [extractLoop_infer_cons t rest row rows ht]
      rw [ih]
      have hf : (List.filter (fun t => !t.data.isEmpty) (t :: rest))
          = t :: List.filter (fun t => !t.data.isEmpty) rest := by
        simp [List.filter_cons, ht]
      rw [hf]
      simp

/-- C7: when the process-wide dispatcher is already in subprocess mode
and a later call does not force subprocess mode, the changed
text-encoding, java-option and diagnostic-silence settings are applied
to the existing dispatcher instance in place: no new dispatcher is
allocated (the allocation counter and the instance identifier are
unchanged) and the dispatcher now carries the updated settings. -/
theorem run_subprocess_update_in_place (st : RunState) (s : SubprocessTabula)
    (o : TabulaOption) (joArg : Option (List String)) (enc : String)
    (jp d : Bool) (hst : st.dispatcher = some (.subprocess s)) :
    (_run st o joArg enc false jp d).dispatcher
        = some (.subprocess (update_encoding s enc (_build_java_options joArg enc d)
            (truthyBoolOpt o.silent)))
      ∧ (_run st o joArg enc false jp d).nextGen = st.nextGen
      ∧ (update_encoding s enc (_build_java_options joArg enc d)
          (truthyBoolOpt o.silent)).gen = s.gen
      ∧ (update_encoding s enc (_build_java_options joArg enc d)
          (truthyBoolOpt o.silent)).encoding = enc
      ∧ (update_encoding s enc (_build_java_options joArg enc d)
          (truthyBoolOpt o.silent)).java_options
          = (if truthyBoolOpt o.silent
              then _build_java_options joArg enc d ++ silentJavaFlags
              else _build_java_options joArg enc d) := by
  unfold _run
  simp [hst, update_encoding]

/-- C8 (amended): `build_option_list` leaves every field unchanged except
`guess`, which is cleared exactly when the `area` field is truthy; an
option without a truthy area is returned fully unchanged. -/
theorem build_option_list_frame (o : TabulaOption) :
    (TabulaOption.build_option_list o).2 = { o with guess := o.guess && !truthyArea o.area } := by
  unfold TabulaOption.build_option_list
  by_cases h : truthyArea o.area <;> simp [h]

/-- Witness for C1: a fully populated option rendered at a concrete
input, with the theorem's success hypothesis discharged by computation. -/
theorem build_option_list_token_order_witness :
    ["--pages", "1,2", "--area", "1,2,3,4", "--area", "5,6,7,8", "--lattice", "--stream",
     "--format", "JSON", "--outfile", "out.csv", "--columns", "%10,20", "--password", "pw",
     "--batch", "dir", "--silent"]
      = rawTokens
          { pages := some (.ofList [1, 2]), guess := true,
            area := some (.multi [[1, 2, 3, 4], [5, 6, 7, 8]]),
            lattice := true, stream := true, password := some "pw", silent := some true,
            columns := some [10, 20], relative_columns := true, format := some "JSON",
            batch := some "dir", output_path := some "out.csv" }
        ++ pagesTokens
          { pages := some (.ofList [1, 2]), guess := true,
            area := some (.multi [[1, 2, 3, 4], [5, 6, 7, 8]]),
            lattice := true, stream := true, password := some "pw", silent := some true,
            columns := some [10, 20], relative_columns := true, format := some "JSON",
            batch := some "dir", output_path := some "out.csv" }
        ++ areaTokens
          { pages := some (.ofList [1, 2]), guess := true,
            area := some (.multi [[1, 2, 3, 4], [5, 6, 7, 8]]),
            lattice := true, stream := true, password := some "pw", silent := some true,
            columns := some [10, 20], relative_columns := true, format := some "JSON",
            batch := some "dir", output_path := some "out.csv" }
        ++ latticeTokens
          { pages := some (.ofList [1, 2]), guess := true,
            area := some (.multi [[1, 2, 3, 4], [5, 6, 7, 8]]),
            lattice := true, stream := true, password := some "pw", silent := some true,
            columns := some [10, 20], relative_columns := true, format := some "JSON",
            batch := some "dir", output_path := some "out.csv" }
        ++ streamTokens
          { pages := some (.ofList [1, 2]), guess := true,
            area := some (.multi [[1, 2, 3, 4], [5, 6, 7, 8]]),
            lattice := true, stream := true, password := some "pw", silent := some true,
            columns := some [10, 20], relative_columns := true, format := some "JSON",
            batch := some "dir", output_path := some "out.csv" }
        ++ guessTokens
          { pages := some (.ofList [1, 2]), guess := true,
            area := some (.multi [[1, 2, 3, 4], [5, 6, 7, 8]]),
            lattice := true, stream := true, password := some "pw", silent := some true,
            columns := some [10, 20], relative_columns := true, format := some "JSON",
            batch := some "dir", output_path := some "out.csv" }
        ++ formatTokens
          { pages := some (.ofList [1, 2]), guess := true,
            area := some (.multi [[1, 2, 3, 4], [5, 6, 7, 8]]),
            lattice := true, stream := true, password := some "pw", silent := some true,
            columns := some [10, 20], relative_columns := true, format := some "JSON",
            batch := some "dir", output_path := some "out.csv" }
        ++ outfileTokens
          { pages := some (.ofList [1, 2]), guess := true,
            area := some (.multi [[1, 2, 3, 4], [5, 6, 7, 8]]),
            lattice := true, stream := true, password := some "pw", silent := some true,
            columns := some [10, 20], relative_columns := true, format := some "JSON",
            batch := some "dir", output_path := some "out.csv" }
        ++ columnsTokens
          { pages := some (.ofList [1, 2]), guess := true,
            area := some (.multi [[1, 2, 3, 4], [5, 6, 7, 8]]),
            lattice := true, stream := true, password := some "pw", silent := some true,
            columns := some [10, 20], relative_columns := true, format := some "JSON",
            batch := some "dir", output_path := some "out.csv" }
        ++ passwordTokens
          { pages := some (.ofList [1, 2]), guess := true,
            area := some (.multi [[1, 2, 3, 4], [5, 6, 7, 8]]),
            lattice := true, stream := true, password := some "pw", silent := some true,
            columns := some [10, 20], relative_columns := true, format := some "JSON",
            batch := some "dir", output_path := some "out.csv" }
        ++ batchTokens
          { pages := some (.ofList [1, 2]), guess := true,
            area := some (.multi [[1, 2, 3, 4], [5, 6, 7, 8]]),
            lattice := true, stream := true, password := some "pw", silent := some true,
            columns := some [10, 20], relative_columns := true, format := some "JSON",
            batch := some "dir", output_path := some "out.csv" }
        ++ silentTokens
          { pages := some (.ofList [1, 2]), guess := true,
            area := some (.multi [[1, 2, 3, 4], [5, 6, 7, 8]]),
            lattice := true, stream := true, password := some "pw", silent := some true,
            columns := some [10, 20], relative_columns := true, format := some "JSON",
            batch := some "dir", output_path := some "out.csv" } :=
  build_option_list_token_order _ _ rfl

/-- Witness for C2: the validity conjunct applied at a concrete good
region. -/
theorem invalid_region_rejection_witness : _validate_area [1, 2, 3, 4] = .ok () :=
  invalid_region_rejection.2.2.2.2 1 2 3 4 (by norm_num) (by norm_num)

/-- Witness for C3: a falsy override does not suppress the base value. -/
theorem merge_field_semantics_witness :
    (TabulaOption.merge { pages := none } { pages := some (.ofInt 3) }).pages
      = some (.ofInt 3) :=
  (merge_field_semantics { pages := none } { pages := some (.ofInt 3) }).1.2 rfl

/-- Witness for C4: the general part applied at a concrete input. -/
theorem load_template_grouping_witness :
    (load_template ([] : List TemplateEntry)).length
      = (groupRuns (sortTemplates ([] : List TemplateEntry))).length :=
  (load_template_grouping.1 []).2.2.2.1

/-- Witness for C7: applied to a concrete subprocess state. -/
theorem run_subprocess_update_witness :
    (_run { dispatcher := some (.subprocess { gen := 0, java_options := [], encoding := "utf-8" }),
            nextGen := 1 }
        {} (some ["-Xmx256m"]) "cp932" false true false).nextGen = 1 :=
  (run_subprocess_update_in_place
    { dispatcher := some (.subprocess { gen := 0, java_options := [], encoding := "utf-8" }),
      nextGen := 1 }
    { gen := 0, java_options := [], encoding := "utf-8" }
    {} (some ["-Xmx256m"]) "cp932" true false rfl).2.1

/-- Witness for C9: the success conjunct applied at sorted concrete
columns. -/
theorem unsorted_columns_rejection_witness :
    (TabulaOption.build_option_list { columns := some [10, 50, 90] }).1
      = .ok ["--guess", "--columns", "10,50,90"] := by
  have hs : List.Sorted (· ≤ ·) ([10, 50, 90] : List Rat) := by
    norm_num [List.sorted_cons]
  exact (unsorted_columns_rejection [10, 50, 90] (by simp)).2.1 hs

end Tabula
